import Mathlib

/-!
# The image details pane of dive (`cmd/dive/cli/internal/ui/v1/view/image_details.go`)

A shallow embedding of `ImageDetails` and its methods.  Everything the file
imports from elsewhere (gocui, go-humanize, the `format`, `key` and `log`
packages, the cursor helpers of package `view`) is a field of `Env`; the code of
the file itself is translated method by method.  The type of the score is a
parameter, with the expression `int(100.0 * x)` a field of `Env` as well;
`Env.withFloat64` sets it to `percent64`, the expression in the `float64`
arithmetic of the language (IEEE 754 binary64, round to nearest, ties to even).
-/

namespace Dive

/-! ## Go values -/

/-- Go `error`: `none` is `nil`. -/
abbrev GoError := Option String

/-- Result of running a Go function that can hit a nil dereference. -/
inductive Outcome (α : Type) where
  | panicked : Outcome α
  | returned : α → Outcome α
  deriving DecidableEq, Repr

/-- Conversion of a mathematical integer to `int64` (two's complement wrap-around). -/
def wrapInt64 (x : Int) : Int := (x + 2 ^ 63) % 2 ^ 64 - 2 ^ 63

/-- The conversion `uint64(x)` of an `int64` value. -/
def toUint64 (x : Int) : Nat := (x % 2 ^ 64).toNat

/-- Addition on `int64`. -/
def addInt64 (a b : Int) : Int := wrapInt64 (a + b)

/-- Unary minus on `int` (64 bit). -/
def negInt (a : Int) : Int := wrapInt64 (-a)

/-! ## Data model -/

/-- The fields of `gocui.View` this file assigns; `rest` is everything else of the view. -/
structure View (V : Type) where
  Editable : Bool
  Wrap : Bool
  Highlight : Bool
  Frame : Bool
  rest : V
  deriving DecidableEq, Repr

/-- An entry of `filetree.EfficiencySlice`, with the three fields `Render` reads.
`CumulativeSize` is an `int64`. -/
structure EfficiencyData (N : Type) where
  Path : String
  Nodes : List N
  CumulativeSize : Int
  deriving DecidableEq, Repr

/-- The navigation part of `key.Bindings`. -/
structure Navigation (K : Type) where
  Down : K
  Up : K
  PageUp : K
  PageDown : K
  deriving DecidableEq, Repr

/-- Key bindings `key.Bindings`, as far as `Setup` reads them. -/
structure Bindings (K : Type) where
  Navigation : Navigation K
  deriving DecidableEq, Repr

/-- The method values `Setup` registers as key actions. -/
inductive Action where
  | CursorDown
  | CursorUp
  | PageUp
  | PageDown
  deriving DecidableEq, Repr

/-- One `key.BindingInfo`; a `Modifier` left out of the literal is the zero value 0. -/
structure BindingInfo (K : Type) where
  Config : K
  Modifier : Nat
  OnAction : Action
  deriving DecidableEq, Repr

/-- A nested logger, identified by its name components. -/
structure Logger where
  names : List String
  deriving DecidableEq, Repr

/-- One emitted log record; `origin` is the name of the nested logger, empty for the
package-level logger. -/
structure LogEntry where
  origin : List String
  level : String
  fields : List (String × GoError)
  message : String
  deriving DecidableEq, Repr

/-- The struct `ImageDetails`.  Pointers that the file tests or assigns
(`body`, `header`) and the logger interface value are optional: `none` is nil.  The `gui`
pointer is set where the struct is built, outside this file, and is taken to be non-nil. -/
structure ImageDetails (G V K F N : Type) where
  gui : G
  body : Option (View V)
  header : Option (View V)
  logger : Option Logger
  imageName : String
  imageSize : Nat
  efficiency : F
  inefficiencies : List (EfficiencyData N)
  kb : Bindings K

/-- What `image_details.go` calls but does not define. -/
structure Env (G V K F : Type) where
  /-- The function `format.Header`. -/
  Header : String → String
  /-- The call `fmt.Sprintf(f, a, b, c)` for a format string `f` that is not a literal of this file. -/
  SprintfVia : String → String → String → String → String
  /-- The function `humanize.Bytes`. -/
  humanizeBytes : Nat → String
  /-- The expression `int(100.0 * x)` on a `float64`. -/
  percent : F → Int
  /-- The function `format.RenderHeader`. -/
  RenderHeader : String → Int → Bool → String
  /-- The method `(*gocui.View).Size` on a non-nil view: width and height. -/
  viewSize : View V → Int × Int
  /-- The method `(*gocui.View).Clear`. -/
  viewClear : View V → View V
  /-- The call `fmt.Fprintln(view, s)`: the view afterwards and the error. -/
  Fprintln : View V → String → View V × GoError
  /-- The test `gui.CurrentView() == view`. -/
  isCurrentView : G → View V → Bool
  /-- The function `key.GenerateBindings`: the gui afterwards and the error. -/
  GenerateBindings : G → String → List (BindingInfo K) → G × GoError
  /-- The helper `CursorStep` of package `view` on a non-nil view: the gui and the view
  afterwards and the error. -/
  CursorStep : G → View V → Int → Outcome ((G × View V) × GoError)
  /-- The helper `CursorUp` of package `view` on a non-nil view. -/
  CursorUp : G → View V → Outcome ((G × View V) × GoError)
  /-- The helper `CursorUp` called with a nil view. -/
  CursorUpNil : G → Outcome (G × GoError)
  /-- The helper `CursorDown` of package `view` on a non-nil view. -/
  CursorDown : G → View V → Outcome ((G × View V) × GoError)
  /-- The helper `CursorDown` called with a nil view. -/
  CursorDownNil : G → Outcome (G × GoError)
  /-- The function `log.Nested`. -/
  Nested : String → String → Logger
  /-- The constant `gocui.ModNone`. -/
  ModNone : Nat

variable {G V K F N : Type}

/-! ## Formatting with the literal templates of the file -/

/-- A `%Ns` operand: right-justified in a field of `w` characters. -/
def padLeft (w : Nat) (s : String) : String :=
  String.mk (List.replicate (w - s.length) ' ') ++ s

/-- The template `analysisTemplate`. -/
def analysisTemplate : String := "%5s  %12s  %-s\n"

/-- The call `fmt.Sprintf(analysisTemplate, a, b, c)` with three strings. -/
def sprintfAnalysis (a b c : String) : String :=
  padLeft 5 a ++ "  " ++ padLeft 12 b ++ "  " ++ c ++ "\n"

/-- The call `fmt.Sprintf("%s %s", a, b)`. -/
def sprintfPair (a b : String) : String := a ++ " " ++ b

/-- The call `fmt.Sprintf("%s %d %%", a, n)`. -/
def sprintfPercent (a : String) (n : Int) : String := a ++ " " ++ toString n ++ " %"

/-- The function `strconv.Itoa` on a length. -/
def Itoa (n : Nat) : String := toString n

/-- The function `strings.Join`. -/
def stringsJoin (lines : List String) (sep : String) : String := sep.intercalate lines

/-! ## Methods -/

/-- The method `Name`. -/
def ImageDetails.Name (_v : ImageDetails G V K F N) : String := "imageDetails"

/-- One row of the report, as built in the loop body of `Render` from `data`. -/
def reportRow (env : Env G V K F) (data : EfficiencyData N) : String :=
  sprintfAnalysis (Itoa data.Nodes.length) (env.humanizeBytes (toUint64 data.CumulativeSize))
    data.Path

/-- The element `v.inefficiencies[len(v.inefficiencies)-1-idx]` read at loop index `idx`. -/
def dataAt (ineff : List (EfficiencyData N)) (idx : Nat) (h : idx < ineff.length) :
    EfficiencyData N :=
  ineff.get ⟨ineff.length - 1 - idx, by omega⟩

/-- The loop of `Render`, from index `idx` with the current `wastedSpace` and
`inefficiencyReport`.  `fuel` bounds the number of iterations; `Render` starts the loop
with as many as the slice has entries, which `renderLoop_eq` shows to be enough. -/
def renderLoop (env : Env G V K F) (ineff : List (EfficiencyData N)) :
    (fuel idx : Nat) → (wastedSpace : Int) → (inefficiencyReport : String) → Int × String
  | 0, _, wastedSpace, inefficiencyReport => (wastedSpace, inefficiencyReport)
  | fuel + 1, idx, wastedSpace, inefficiencyReport =>
    if h : idx < ineff.length then
      let data := dataAt ineff idx h
      renderLoop env ineff fuel (idx + 1) (addInt64 wastedSpace data.CumulativeSize)
        (inefficiencyReport ++ reportRow env data)
    else
      (wastedSpace, inefficiencyReport)

/-- The values `Render` computes before it schedules the screen update. -/
structure RenderTexts where
  inefficiencyReport : String
  wastedSpace : Int
  imageNameStr : String
  imageSizeStr : String
  efficiencyStr : String
  wastedSpaceStr : String
  deriving DecidableEq, Repr

/-- Lines 83 to 97 of `Render`. -/
def renderTexts (env : Env G V K F) (v : ImageDetails G V K F N) : RenderTexts :=
  let inefficiencyReport := env.SprintfVia (env.Header analysisTemplate) "Count" "Total Space" "Path"
  let r := renderLoop env v.inefficiencies v.inefficiencies.length 0 0 inefficiencyReport
  { inefficiencyReport := r.2
    wastedSpace := r.1
    imageNameStr := sprintfPair (env.Header "Image name:") v.imageName
    imageSizeStr := sprintfPair (env.Header "Total Image size:") (env.humanizeBytes v.imageSize)
    efficiencyStr := sprintfPercent (env.Header "Image efficiency score:") (env.percent v.efficiency)
    wastedSpaceStr :=
      sprintfPair (env.Header "Potential wasted space:") (env.humanizeBytes (toUint64 r.1)) }

/-- The slice `lines` of the update function. -/
def bodyLines (t : RenderTexts) : List String :=
  [t.imageNameStr, t.imageSizeStr, t.wastedSpaceStr, t.efficiencyStr, " ", t.inefficiencyReport]

/-- The string handed to `fmt.Fprintln(v.body, ...)`. -/
def bodyText (t : RenderTexts) : String := stringsJoin (bodyLines t) "\n"

/-- The record logged when a write to a view fails. -/
def writeFailure (err : GoError) : LogEntry :=
  { origin := [], level := "debug", fields := [("error", err)],
    message := "unable to write to buffer" }

/-- The function `Render` passes to `v.gui.Update`, run on the state `v` with the texts `t`
it has captured: the state afterwards, the records logged and the error returned. -/
def renderUpdate (env : Env G V K F) (t : RenderTexts) (v : ImageDetails G V K F N) :
    Outcome (ImageDetails G V K F N × List LogEntry × GoError) :=
  match v.body with
  | none => Outcome.panicked
  | some body =>
    let width := (env.viewSize body).1
    let imageHeaderStr := env.RenderHeader "Image Details" width (env.isCurrentView v.gui body)
    match v.header with
    | none => Outcome.panicked
    | some header =>
      let w1 := env.Fprintln (env.viewClear header) imageHeaderStr
      let log1 := if w1.2 ≠ none then [writeFailure w1.2] else []
      let w2 := env.Fprintln (env.viewClear body) (bodyText t)
      let log2 := if w2.2 ≠ none then [writeFailure w2.2] else []
      Outcome.returned ({ v with header := some w1.1, body := some w2.1 }, log1 ++ log2, w2.2)

/-- The method `Render`: the state afterwards, the error returned (always nil) and the
texts captured by the update function it schedules. -/
def ImageDetails.Render (env : Env G V K F) (v : ImageDetails G V K F N) :
    ImageDetails G V K F N × GoError × RenderTexts :=
  (v, none, renderTexts env v)

/-- The method `Update`. -/
def ImageDetails.Update (v : ImageDetails G V K F N) : ImageDetails G V K F N × GoError :=
  (v, none)

/-- The method `OnLayoutChange`. -/
def ImageDetails.OnLayoutChange (env : Env G V K F) (v : ImageDetails G V K F N) :
    ImageDetails G V K F N × GoError × Option RenderTexts :=
  match v.Update with
  | (v1, some err) => (v1, some err, none)
  | (v1, none) =>
    let r := v1.Render env
    (r.1, r.2.1, some r.2.2)

/-- The method `IsVisible`. -/
def ImageDetails.IsVisible (v : ImageDetails G V K F N) : Bool := v.body.isSome

/-- The method `KeyHelp`. -/
def ImageDetails.KeyHelp (_v : ImageDetails G V K F N) : String := ""

/-- The slice `infos` of `Setup`. -/
def setupInfos (env : Env G V K F) (v : ImageDetails G V K F N) : List (BindingInfo K) :=
  [ { Config := v.kb.Navigation.Down, Modifier := env.ModNone, OnAction := Action.CursorDown },
    { Config := v.kb.Navigation.Up, Modifier := env.ModNone, OnAction := Action.CursorUp },
    { Config := v.kb.Navigation.PageUp, Modifier := 0, OnAction := Action.PageUp },
    { Config := v.kb.Navigation.PageDown, Modifier := 0, OnAction := Action.PageDown } ]

/-- The method `Setup`, called with the pointers `body` and `header`: the state afterwards,
the records logged and the error returned.  Assigning a field through a nil view panics. -/
def ImageDetails.Setup (env : Env G V K F) (v : ImageDetails G V K F N)
    (body header : Option (View V)) : Outcome (ImageDetails G V K F N × List LogEntry × GoError) :=
  let logger := env.Nested "ui" "imageDetails"
  let trace : LogEntry :=
    { origin := logger.names, level := "trace", fields := [], message := "Setup()" }
  match body with
  | none => Outcome.panicked
  | some b =>
    let b1 := { b with Editable := false, Wrap := true, Highlight := true, Frame := false }
    match header with
    | none => Outcome.panicked
    | some h =>
      let h1 := { h with Editable := false, Wrap := true, Highlight := false, Frame := false }
      let v1 := { v with logger := some logger, body := some b1, header := some h1 }
      let r := env.GenerateBindings v1.gui v1.Name (setupInfos env v1)
      match r.2 with
      | some err => Outcome.returned ({ v1 with gui := r.1 }, [trace], some err)
      | none => Outcome.returned ({ v1 with gui := r.1 }, [trace], none)

/-- The record a navigation handler logs when the cursor move failed. -/
def moveFailure (logger : Logger) (err : GoError) (message : String) : LogEntry :=
  { origin := logger.names, level := "debug", fields := [("error", err)], message := message }

/-- The part of a navigation handler after the cursor helper has returned `err`: log it
through `v.logger` when it is not nil, and return nil. -/
def afterMove (v : ImageDetails G V K F N) (err : GoError) (message : String) :
    Outcome (ImageDetails G V K F N × List LogEntry × GoError) :=
  if err ≠ none then
    match v.logger with
    | none => Outcome.panicked
    | some logger => Outcome.returned (v, [moveFailure logger err message], none)
  else
    Outcome.returned (v, [], none)

/-- The method `PageUp`. -/
def ImageDetails.PageUp (env : Env G V K F) (v : ImageDetails G V K F N) :
    Outcome (ImageDetails G V K F N × List LogEntry × GoError) :=
  match v.body with
  | none => Outcome.panicked
  | some body =>
    let height := (env.viewSize body).2
    match env.CursorStep v.gui body (negInt height) with
    | Outcome.panicked => Outcome.panicked
    | Outcome.returned r =>
      afterMove { v with gui := r.1.1, body := some r.1.2 } r.2
        ("couldn't move the cursor up by " ++ toString height ++ " steps")

/-- The method `PageDown`. -/
def ImageDetails.PageDown (env : Env G V K F) (v : ImageDetails G V K F N) :
    Outcome (ImageDetails G V K F N × List LogEntry × GoError) :=
  match v.body with
  | none => Outcome.panicked
  | some body =>
    let height := (env.viewSize body).2
    match env.CursorStep v.gui body height with
    | Outcome.panicked => Outcome.panicked
    | Outcome.returned r =>
      afterMove { v with gui := r.1.1, body := some r.1.2 } r.2
        ("couldn't move the cursor down by " ++ toString height ++ " steps")

/-- The method `CursorUp`. -/
def ImageDetails.CursorUp (env : Env G V K F) (v : ImageDetails G V K F N) :
    Outcome (ImageDetails G V K F N × List LogEntry × GoError) :=
  match v.body with
  | none =>
    match env.CursorUpNil v.gui with
    | Outcome.panicked => Outcome.panicked
    | Outcome.returned r => afterMove { v with gui := r.1 } r.2 "couldn't move the cursor up"
  | some body =>
    match env.CursorUp v.gui body with
    | Outcome.panicked => Outcome.panicked
    | Outcome.returned r =>
      afterMove { v with gui := r.1.1, body := some r.1.2 } r.2 "couldn't move the cursor up"

/-- The method `CursorDown`. -/
def ImageDetails.CursorDown (env : Env G V K F) (v : ImageDetails G V K F N) :
    Outcome (ImageDetails G V K F N × List LogEntry × GoError) :=
  match v.body with
  | none =>
    match env.CursorDownNil v.gui with
    | Outcome.panicked => Outcome.panicked
    | Outcome.returned r => afterMove { v with gui := r.1 } r.2 "couldn't move the cursor down"
  | some body =>
    match env.CursorDown v.gui body with
    | Outcome.panicked => Outcome.panicked
    | Outcome.returned r =>
      afterMove { v with gui := r.1.1, body := some r.1.2 } r.2 "couldn't move the cursor down"

/-- The fields of `ImageDetails` that hold the analysis results. -/
def analysisResults (v : ImageDetails G V K F N) :
    String × Nat × F × List (EfficiencyData N) :=
  (v.imageName, v.imageSize, v.efficiency, v.inefficiencies)

/-! ## The type `float64` and the expression `int(100.0 * x)` -/

/-- A `float64` value.  `finite m e` is the number `m * 2 ^ e`; the sign of a zero is not
kept. -/
inductive Float64 where
  | finite (m : Int) (e : Int)
  | inf (negative : Bool)
  | nan
  deriving DecidableEq, Repr

/-- The rational number `m * 2 ^ e`. -/
def dyadic (m e : Int) : ℚ := (m : ℚ) * (2 : ℚ) ^ e

/-- The values a `float64` can hold: at most 53 significant bits, the exponent of the last
bit between -1074 and 971. -/
def Float64.isBinary64 : Float64 → Prop
  | Float64.finite m e => m.natAbs < 2 ^ 53 ∧ -1074 ≤ e ∧ e ≤ 971
  | _ => True

/-- Number of binary digits of `a`, counted with at most `fuel` halvings. -/
def bitLengthAux : Nat → Nat → Nat
  | 0, _ => 0
  | fuel + 1, a => if a = 0 then 0 else bitLengthAux fuel (a / 2) + 1

/-- Number of binary digits of `a`: 0 for 0, and `k + 1` when `2 ^ k ≤ a < 2 ^ (k + 1)`. -/
def bitLength (a : Nat) : Nat := bitLengthAux a a

/-- The integer nearest to `a / 2 ^ s`, the even one of two equally near. -/
def roundNearestEven (a s : Nat) : Nat :=
  let q := a / 2 ^ s
  let r := a % 2 ^ s
  if 2 * r < 2 ^ s then q
  else if 2 ^ s < 2 * r then q + 1
  else if q % 2 = 0 then q
  else q + 1

/-- The `float64` nearest to `n * 2 ^ e`, ties to the even significand.  The result is a
multiple of `2 ^ (e + s)`, the exponent `e + s` being the larger of -1074 and 52 below the
exponent of the leading bit of `n * 2 ^ e` (and `e` itself when that is larger still, the
value being representable as it is); a rounded magnitude of `2 ^ 1024` or more gives an
infinity. -/
def round64 (n e : Int) : Float64 :=
  let a := n.natAbs
  let s := (max ((bitLength a : Int) - 53 + e) (-1074) - e).toNat
  let q := roundNearestEven a s
  if q ≠ 0 ∧ 1025 ≤ (bitLength q : Int) + (e + s) then Float64.inf (decide (n < 0))
  else Float64.finite (if n < 0 then -(q : Int) else q) (e + s)

/-- The product `x * y` of two `float64` values. -/
def Float64.mul : Float64 → Float64 → Float64
  | Float64.finite m1 e1, Float64.finite m2 e2 => round64 (m1 * m2) (e1 + e2)
  | Float64.finite m _, Float64.inf b =>
    if m = 0 then Float64.nan else Float64.inf (xor (decide (m < 0)) b)
  | Float64.inf b, Float64.finite m _ =>
    if m = 0 then Float64.nan else Float64.inf (xor b (decide (m < 0)))
  | Float64.inf a, Float64.inf b => Float64.inf (xor a b)
  | _, _ => Float64.nan

/-- The integer part of `m * 2 ^ e`, rounded toward zero. -/
def truncDyadic (m e : Int) : Int :=
  if 0 ≤ e then m * 2 ^ e.toNat
  else if 0 ≤ m then ((m.natAbs / 2 ^ (-e).toNat : Nat) : Int)
  else -((m.natAbs / 2 ^ (-e).toNat : Nat) : Int)

/-- The conversion `int(x)` of a `float64`: the value truncated toward zero when that fits
an `int`; otherwise (too large, infinite, not a number) the language leaves the result to
the implementation, and there is none here. -/
def Float64.toInt : Float64 → Option Int
  | Float64.finite m e =>
    if -(2 ^ 63) ≤ truncDyadic m e ∧ truncDyadic m e < 2 ^ 63 then some (truncDyadic m e)
    else none
  | _ => none

/-- The constant `100.0`. -/
def hundred : Float64 := Float64.finite 25 2

/-- The expression `int(100.0 * x)` of line 96 of `Render`. -/
def percent64 (x : Float64) : Option Int := (hundred.mul x).toInt

/-- The environment in which `int(100.0 * x)` is evaluated in `float64` arithmetic.  Where
the language leaves the conversion to the implementation (the product too large for an
`int`, infinite or not a number), the value of `env` stays. -/
def Env.withFloat64 (env : Env G V K Float64) : Env G V K Float64 :=
  { env with percent := fun x => (percent64 x).getD (env.percent x) }

/-! ## The order of an `EfficiencySlice` -/

/-- The order in which the analyzer hands over two entries, `a` before `b`: ascending by
`CumulativeSize`, ties ascending by path. -/
def ascendingEntry (a b : EfficiencyData N) : Prop :=
  a.CumulativeSize < b.CumulativeSize ∨ (a.CumulativeSize = b.CumulativeSize ∧ a.Path ≤ b.Path)

/-! ## Sample environment and states -/

/-- An environment for examples: no colour codes, byte counts printed as `n B`, a view
that is its text buffer, every external call succeeding.  A score is represented by the
percentage `int(100.0 * x)` it yields. -/
def sampleEnv : Env Unit String Unit Int where
  Header := fun s => s
  SprintfVia := fun _ a b c => sprintfAnalysis a b c
  humanizeBytes := fun n => toString n ++ " B"
  percent := fun x => x
  RenderHeader := fun title _ _ => title
  viewSize := fun _ => (80, 24)
  viewClear := fun w => { w with rest := "" }
  Fprintln := fun w s => ({ w with rest := w.rest ++ s ++ "\n" }, none)
  isCurrentView := fun _ _ => true
  GenerateBindings := fun g _ _ => (g, none)
  CursorStep := fun g w _ => Outcome.returned ((g, w), none)
  CursorUp := fun g w => Outcome.returned ((g, w), none)
  CursorUpNil := fun _ => Outcome.panicked
  CursorDown := fun g w => Outcome.returned ((g, w), none)
  CursorDownNil := fun _ => Outcome.panicked
  Nested := fun a b => { names := [a, b] }
  ModNone := 0

/-- The sample environment with a `key.GenerateBindings` that fails. -/
def failingBindingsEnv : Env Unit String Unit Int :=
  { sampleEnv with GenerateBindings := fun g _ _ => (g, some "binding failed") }

/-- The sample environment with cursor helpers that return an error. -/
def failingCursorEnv : Env Unit String Unit Int :=
  { sampleEnv with
    CursorStep := fun g w _ => Outcome.returned ((g, w), some "invalid cursor position")
    CursorUp := fun g w => Outcome.returned ((g, w), some "invalid cursor position")
    CursorDown := fun g w => Outcome.returned ((g, w), some "invalid cursor position") }

/-- A view as gocui hands it out. -/
def sampleView : View String :=
  { Editable := true, Wrap := false, Highlight := false, Frame := true, rest := "" }

/-- The details of the image with layers `/a: 100`, `/a: 40`, `/b: 10`, before `Setup`. -/
def sampleDetails : ImageDetails Unit String Unit Int Unit :=
  { gui := ()
    body := none
    header := none
    logger := none
    imageName := "example:latest"
    imageSize := 150
    efficiency := 33
    inefficiencies := [{ Path := "/a", Nodes := [(), ()], CumulativeSize := 100 }]
    kb := { Navigation := { Down := (), Up := (), PageUp := (), PageDown := () } } }

/-- Three entries in the order of the analyzer: ascending by size, ties by path. -/
def sampleSlice : List (EfficiencyData Unit) :=
  [ { Path := "/b", Nodes := [(), ()], CumulativeSize := 10 },
    { Path := "/a", Nodes := [(), ()], CumulativeSize := 100 },
    { Path := "/c", Nodes := [(), (), ()], CumulativeSize := 100 } ]

/-- The body view as `Setup` configures it. -/
def sampleBody : View String :=
  { Editable := false, Wrap := true, Highlight := true, Frame := false, rest := "" }

/-- The header view as `Setup` configures it. -/
def sampleHeader : View String :=
  { Editable := false, Wrap := true, Highlight := false, Frame := false, rest := "" }

/-- The logger `Setup` installs. -/
def sampleLogger : Logger := { names := ["ui", "imageDetails"] }

/-- The sample details after `Setup` was handed two copies of `sampleView`. -/
def sampleReady : ImageDetails Unit String Unit Int Unit :=
  { sampleDetails with
    body := some sampleBody
    header := some sampleHeader
    logger := some sampleLogger }

/-- The sample details with views assigned but no logger. -/
def sampleNoLogger : ImageDetails Unit String Unit Int Unit :=
  { sampleReady with logger := none }

/-- The sample details after the screen update scheduled by `Render` has run. -/
def sampleShown : ImageDetails Unit String Unit Int Unit :=
  { sampleReady with
    body := some { Editable := false, Wrap := true, Highlight := true, Frame := false,
                   rest := "Image name: example:latest\nTotal Image size: 150 B\n" ++
                     "Potential wasted space: 100 B\nImage efficiency score: 33 %\n \n" ++
                     "Count   Total Space  Path\n    2         100 B  /a\n\n" }
    header := some { Editable := false, Wrap := true, Highlight := false, Frame := false,
                     rest := "Image Details\n" } }

/-- The record `Setup` logs on entry. -/
def setupTrace : LogEntry :=
  { origin := ["ui", "imageDetails"], level := "trace", fields := [], message := "Setup()" }

/-- The `float64` nearest to 0.03, `0x1.eb851eb851eb8p-6`. -/
def threeHundredths : Float64 := Float64.finite 1080863910568919 (-55)

/-- The `float64` next below 0.67, `0x1.570a3d70a3d70p-1`; the product `100.0 * x` is
`67 - 2 ^ -47`, midway between the neighbouring `float64` values `67 - 2 ^ -46` and 67. -/
def tieScore : Float64 := Float64.finite 377176468792279 (-49)

/-- The `float64` that `1 - 100.0/150` evaluates to, `0x1.5555555555556p-2`. -/
def exampleScore : Float64 := Float64.finite 3002399751580331 (-53)

/-- The `float64` 1.0. -/
def one64 : Float64 := Float64.finite 1 0

/-- The sample environment for `float64` scores.  Its own `int(100.0 * x)` is 0; under
`Env.withFloat64` that is the value only where the language defines none. -/
def sampleEnv64 : Env Unit String Unit Float64 where
  Header := sampleEnv.Header
  SprintfVia := sampleEnv.SprintfVia
  humanizeBytes := sampleEnv.humanizeBytes
  percent := fun _ => 0
  RenderHeader := sampleEnv.RenderHeader
  viewSize := sampleEnv.viewSize
  viewClear := sampleEnv.viewClear
  Fprintln := sampleEnv.Fprintln
  isCurrentView := sampleEnv.isCurrentView
  GenerateBindings := sampleEnv.GenerateBindings
  CursorStep := sampleEnv.CursorStep
  CursorUp := sampleEnv.CursorUp
  CursorUpNil := sampleEnv.CursorUpNil
  CursorDown := sampleEnv.CursorDown
  CursorDownNil := sampleEnv.CursorDownNil
  Nested := sampleEnv.Nested
  ModNone := sampleEnv.ModNone

/-- The details of the sample image with the `float64` score `x`. -/
def sampleScored (x : Float64) : ImageDetails Unit String Unit Float64 Unit :=
  { gui := ()
    body := none
    header := none
    logger := none
    imageName := "example:latest"
    imageSize := 150
    efficiency := x
    inefficiencies := [{ Path := "/a", Nodes := [(), ()], CumulativeSize := 100 }]
    kb := { Navigation := { Down := (), Up := (), PageUp := (), PageDown := () } } }

/-! ## Helper lemmas -/

theorem wrapInt64_of_range (x : Int) (h0 : -(2 ^ 63) ≤ x) (h1 : x < 2 ^ 63) : wrapInt64 x = x := by
  unfold wrapInt64
  omega

theorem wrapInt64_add_wrap (a b : Int) : wrapInt64 (wrapInt64 a + b) = wrapInt64 (a + b) := by
  unfold wrapInt64
  omega

theorem toUint64_of_nonneg (x : Int) (h0 : 0 ≤ x) (h1 : x < 2 ^ 64) : (toUint64 x : Int) = x := by
  unfold toUint64
  omega

theorem toUint64_wrapInt64 (x : Int) : toUint64 (wrapInt64 x) = toUint64 x := by
  unfold toUint64 wrapInt64
  congr 1
  omega

/-- Accumulating with `int64` addition from a value in range gives the wrapped exact sum. -/
theorem foldl_addInt64 (l : List Int) (w : Int) :
    wrapInt64 (l.foldl addInt64 w) = wrapInt64 (w + l.sum) ∧
      (wrapInt64 w = w → l.foldl addInt64 w = wrapInt64 (w + l.sum)) := by
  induction l generalizing w with
  | nil =>
    simp only [List.foldl_nil, List.sum_nil, add_zero, true_and]
    exact fun h => h.symm
  | cons a l ih =>
    have h := ih (addInt64 w a)
    have e : wrapInt64 (addInt64 w a + l.sum) = wrapInt64 (w + (a + l.sum)) := by
      unfold addInt64
      rw [wrapInt64_add_wrap, add_assoc]
    have hw : wrapInt64 (addInt64 w a) = addInt64 w a := by
      unfold addInt64 wrapInt64
      omega
    simp only [List.foldl_cons, List.sum_cons]
    exact ⟨h.1.trans e, fun _ => (h.2 hw).trans e⟩

/-- The loop of `Render` started at `idx` with enough fuel runs until `idx` reaches the
length of the slice, and visits the entries of the reversed slice from position `idx` on,
in order. -/
theorem renderLoop_eq (env : Env G V K F) (ineff : List (EfficiencyData N)) :
    ∀ (fuel idx : Nat) (w : Int) (r : String), ineff.length ≤ idx + fuel →
      renderLoop env ineff fuel idx w r =
        (((ineff.reverse.drop idx).map (fun d => d.CumulativeSize)).foldl addInt64 w,
          r ++ String.join ((ineff.reverse.drop idx).map (reportRow env))) := by
  have stop : ∀ (idx : Nat) (w : Int) (r : String), ¬ idx < ineff.length →
      (w, r) = (((ineff.reverse.drop idx).map (fun d => d.CumulativeSize)).foldl addInt64 w,
          r ++ String.join ((ineff.reverse.drop idx).map (reportRow env))) := by
    intro idx w r hlt
    have hd : ineff.reverse.drop idx = [] := by
      apply List.drop_eq_nil_of_le
      simp
      omega
    simp [hd, String.join]
  intro fuel
  induction fuel with
  | zero =>
    intro idx w r h
    exact stop idx w r (by omega)
  | succ k ih =>
    intro idx w r h
    by_cases hlt : idx < ineff.length
    · have hlt2 : idx < ineff.reverse.length := by simpa using hlt
      have hd : ineff.reverse.drop idx = ineff.reverse[idx] :: ineff.reverse.drop (idx + 1) :=
        List.drop_eq_getElem_cons hlt2
      have hg : ineff.reverse[idx] = dataAt ineff idx hlt := by
        rw [List.getElem_reverse]
        rfl
      simp only [renderLoop, hlt, dite_true]
      rw [ih (idx + 1) _ _ (by omega), hd, hg]
      simp only [List.map_cons, List.foldl_cons]
      congr 1
      apply String.ext
      simp [String.data_join, String.data_append]
    · simp only [renderLoop, hlt, dite_false]
      exact stop idx w r hlt

/-- The values computed by the loop of `Render`, in closed form. -/
theorem renderTexts_loop (env : Env G V K F) (v : ImageDetails G V K F N) :
    (renderTexts env v).wastedSpace =
        wrapInt64 ((v.inefficiencies.map (fun d => d.CumulativeSize)).sum) ∧
      (renderTexts env v).inefficiencyReport =
        env.SprintfVia (env.Header analysisTemplate) "Count" "Total Space" "Path" ++
          String.join (v.inefficiencies.reverse.map (reportRow env)) := by
  have h := renderLoop_eq env v.inefficiencies v.inefficiencies.length 0 0
    (env.SprintfVia (env.Header analysisTemplate) "Count" "Total Space" "Path") (by omega)
  have hs := (foldl_addInt64 (v.inefficiencies.reverse.map (fun d => d.CumulativeSize)) 0).2
    (by decide)
  simp only [renderTexts, h, List.drop_zero]
  refine ⟨?_, trivial⟩
  rw [hs, zero_add, List.map_reverse, List.sum_reverse]

theorem digitChar_ne_newline (d : Nat) : Nat.digitChar d ≠ '\n' := by
  by_cases h : d < 16
  · interval_cases d <;> decide
  · have e : Nat.digitChar d = '*' := by
      unfold Nat.digitChar
      repeat rw [if_neg (by omega)]
    rw [e]
    decide

theorem toDigitsCore_no_newline (b : Nat) : ∀ (fuel n : Nat) (acc : List Char),
    (∀ c ∈ acc, c ≠ '\n') → ∀ c ∈ Nat.toDigitsCore b fuel n acc, c ≠ '\n' := by
  intro fuel
  induction fuel with
  | zero => intro n acc h; simpa [Nat.toDigitsCore] using h
  | succ f ih =>
    intro n acc h
    have hc : ∀ c ∈ Nat.digitChar (n % b) :: acc, c ≠ '\n' := by
      intro c hc
      rcases List.mem_cons.mp hc with rfl | hc
      · exact digitChar_ne_newline _
      · exact h c hc
    simp only [Nat.toDigitsCore]
    split
    · exact hc
    · exact ih _ _ hc

theorem natRepr_no_newline (n : Nat) : '\n' ∉ (toString n).data := by
  intro h
  exact toDigitsCore_no_newline 10 (n + 1) n [] (by simp) '\n' h rfl

theorem intRepr_no_newline (n : Int) : '\n' ∉ (toString n).data := by
  cases n with
  | ofNat m => exact natRepr_no_newline m
  | negSucc m =>
    intro h
    have e : (toString (Int.negSucc m)).data = '-' :: (toString (m + 1)).data := rfl
    rw [e] at h
    rcases List.mem_cons.mp h with h | h
    · exact absurd h (by decide)
    · exact natRepr_no_newline _ h

theorem splitOn_line (xs rest : List Char) (h : '\n' ∉ xs) :
    (xs ++ '\n' :: rest).splitOn '\n' = xs :: rest.splitOn '\n' := by
  unfold List.splitOn
  apply List.splitOnP_first
  · intro x hx hp
    have e : x = '\n' := by simpa using hp
    exact h (e ▸ hx)
  · simp

theorem bodyText_data (t : RenderTexts) :
    (bodyText t).data = t.imageNameStr.data ++ '\n' :: (t.imageSizeStr.data ++ '\n' ::
      (t.wastedSpaceStr.data ++ '\n' :: (t.efficiencyStr.data ++ '\n' ::
        ([' '] ++ '\n' :: t.inefficiencyReport.data)))) := by
  have e : bodyText t = t.imageNameStr ++ "\n" ++ t.imageSizeStr ++ "\n" ++ t.wastedSpaceStr ++
      "\n" ++ t.efficiencyStr ++ "\n" ++ " " ++ "\n" ++ t.inefficiencyReport := rfl
  rw [e]
  simp [String.data_append]

theorem bodyText_lines (t : RenderTexts) (h1 : '\n' ∉ t.imageNameStr.data)
    (h2 : '\n' ∉ t.imageSizeStr.data) (h3 : '\n' ∉ t.wastedSpaceStr.data)
    (h4 : '\n' ∉ t.efficiencyStr.data) :
    (bodyText t).data.splitOn '\n' =
      t.imageNameStr.data :: t.imageSizeStr.data :: t.wastedSpaceStr.data ::
        t.efficiencyStr.data :: [' '] :: t.inefficiencyReport.data.splitOn '\n' := by
  rw [bodyText_data, splitOn_line _ _ h1, splitOn_line _ _ h2, splitOn_line _ _ h3,
    splitOn_line _ _ h4, splitOn_line _ _ (by decide)]

theorem sprintfPair_ne_empty (a b : String) : sprintfPair a b ≠ "" := by
  intro h
  have e := congrArg String.data h
  simp [sprintfPair, String.data_append] at e

theorem sprintfPercent_ne_empty (a : String) (n : Int) : sprintfPercent a n ≠ "" := by
  intro h
  have e := congrArg String.data h
  simp [sprintfPercent, String.data_append] at e

theorem sprintfPair_no_newline (a b : String) (ha : '\n' ∉ a.data) (hb : '\n' ∉ b.data) :
    '\n' ∉ (sprintfPair a b).data := by
  simp only [sprintfPair, String.data_append, List.mem_append, not_or]
  exact ⟨⟨ha, by decide⟩, hb⟩

theorem sprintfPercent_no_newline (a : String) (n : Int) (ha : '\n' ∉ a.data) :
    '\n' ∉ (sprintfPercent a n).data := by
  simp only [sprintfPercent, String.data_append, List.mem_append, not_or]
  exact ⟨⟨⟨ha, by decide⟩, intRepr_no_newline n⟩, by decide⟩

theorem afterMove_returns (v : ImageDetails G V K F N) (l : Logger) (hl : v.logger = some l)
    (err : GoError) (message : String) :
    ∃ logs : List LogEntry, afterMove v err message = Outcome.returned (v, logs, none) := by
  unfold afterMove
  by_cases he : err ≠ none
  · rw [if_pos he, hl]
    exact ⟨_, rfl⟩
  · rw [if_neg he]
    exact ⟨_, rfl⟩

/-! ### Rounding to `float64` -/

theorem bitLengthAux_zero (fuel : Nat) : bitLengthAux fuel 0 = 0 := by
  cases fuel <;> simp [bitLengthAux]

theorem bitLengthAux_spec : ∀ (fuel a : Nat), a ≤ fuel →
    a < 2 ^ bitLengthAux fuel a ∧ (a ≠ 0 → 2 ^ (bitLengthAux fuel a - 1) ≤ a) := by
  intro fuel
  induction fuel with
  | zero =>
    intro a h
    have h0 : a = 0 := by omega
    subst h0
    simp [bitLengthAux]
  | succ f ih =>
    intro a h
    by_cases h0 : a = 0
    · subst h0
      simp [bitLengthAux]
    · have hhalf : a / 2 ≤ f := by omega
      obtain ⟨hlt, hge⟩ := ih (a / 2) hhalf
      have e : bitLengthAux (f + 1) a = bitLengthAux f (a / 2) + 1 := by
        simp [bitLengthAux, h0]
      rw [e]
      constructor
      · rw [pow_succ]
        omega
      · intro _
        simp only [Nat.add_sub_cancel]
        by_cases h2 : a / 2 = 0
        · rw [h2, bitLengthAux_zero]
          simp
          omega
        · have hk := hge h2
          have hpos : bitLengthAux f (a / 2) ≠ 0 := by
            intro hz
            rw [hz] at hlt
            simp at hlt
            exact h2 hlt
          have e2 : 2 ^ bitLengthAux f (a / 2) = 2 * 2 ^ (bitLengthAux f (a / 2) - 1) := by
            rw [← pow_succ']
            congr 1
            omega
          rw [e2]
          omega

theorem lt_two_pow_bitLength (a : Nat) : a < 2 ^ bitLength a :=
  (bitLengthAux_spec a a (le_refl a)).1

theorem two_pow_bitLength_le (a : Nat) (h : a ≠ 0) : 2 ^ (bitLength a - 1) ≤ a :=
  (bitLengthAux_spec a a (le_refl a)).2 h

theorem bitLength_pos (a : Nat) (h : a ≠ 0) : 0 < bitLength a := by
  have := lt_two_pow_bitLength a
  by_contra hz
  have h0 : bitLength a = 0 := by omega
  rw [h0] at this
  omega

theorem roundNearestEven_zero (a : Nat) : roundNearestEven a 0 = a := by
  simp [roundNearestEven, Nat.mod_one]

theorem le_roundNearestEven (a s j : Nat) (h : j * 2 ^ s ≤ a) : j ≤ roundNearestEven a s := by
  have hq : j ≤ a / 2 ^ s := (Nat.le_div_iff_mul_le (Nat.two_pow_pos s)).mpr h
  unfold roundNearestEven
  simp only
  split_ifs <;> omega

theorem roundNearestEven_le (a s j : Nat) (h : a ≤ j * 2 ^ s) : roundNearestEven a s ≤ j := by
  have hpos : 0 < 2 ^ s := Nat.two_pow_pos s
  have hq : a / 2 ^ s ≤ j := by
    calc a / 2 ^ s ≤ j * 2 ^ s / 2 ^ s := Nat.div_le_div_right h
      _ = j := Nat.mul_div_cancel j hpos
  have hdm := Nat.div_add_mod a (2 ^ s)
  have hm := Nat.mod_lt a hpos
  by_cases hj : a / 2 ^ s = j
  · have hr : a % 2 ^ s = 0 := by
      have : 2 ^ s * (a / 2 ^ s) = j * 2 ^ s := by rw [hj, Nat.mul_comm]
      omega
    unfold roundNearestEven
    simp only [hr]
    simp [hpos, hj]
  · have hlt : a / 2 ^ s < j := lt_of_le_of_ne hq hj
    unfold roundNearestEven
    simp only
    split_ifs <;> omega

theorem dyadic_natCast_neg (a k : Nat) :
    dyadic (a : Int) (-(k : Int)) = (a : ℚ) / 2 ^ k := by
  unfold dyadic
  rw [zpow_neg, zpow_natCast]
  push_cast
  rw [div_eq_mul_inv]

theorem natCast_le_dyadic_neg (j a k : Nat) :
    (j : ℚ) ≤ dyadic (a : Int) (-(k : Int)) ↔ j * 2 ^ k ≤ a := by
  rw [dyadic_natCast_neg, le_div_iff₀ (by positivity)]
  exact_mod_cast Iff.rfl

theorem dyadic_neg_le_natCast (j a k : Nat) :
    dyadic (a : Int) (-(k : Int)) ≤ (j : ℚ) ↔ a ≤ j * 2 ^ k := by
  rw [dyadic_natCast_neg, div_le_iff₀ (by positivity)]
  exact_mod_cast Iff.rfl

theorem bitLength_add_le (a : Nat) (E : Int) (ha : a ≠ 0) (h : dyadic (a : Int) E ≤ 100) :
    (bitLength a : Int) + E ≤ 7 := by
  have h1 : 2 ^ (bitLength a - 1) ≤ a := two_pow_bitLength_le a ha
  have hpos := bitLength_pos a ha
  have h2 : (2 : ℚ) ^ (((bitLength a - 1 : Nat) : Int) + E) ≤ dyadic (a : Int) E := by
    unfold dyadic
    rw [zpow_add₀ (by norm_num), zpow_natCast]
    apply mul_le_mul_of_nonneg_right _ (by positivity)
    exact_mod_cast h1
  have h3 : (2 : ℚ) ^ (((bitLength a - 1 : Nat) : Int) + E) < (2 : ℚ) ^ (7 : Int) := by
    calc (2 : ℚ) ^ (((bitLength a - 1 : Nat) : Int) + E) ≤ dyadic (a : Int) E := h2
      _ ≤ 100 := h
      _ < (2 : ℚ) ^ (7 : Int) := by norm_num
  have h4 := (zpow_lt_zpow_iff_right₀ (by norm_num : (1 : ℚ) < 2)).mp h3
  omega

theorem roundNearestEven_of_zero (s : Nat) : roundNearestEven 0 s = 0 := by
  have hpos : 0 < 2 ^ s := Nat.two_pow_pos s
  simp [roundNearestEven, hpos]

theorem round_exponent_nonpos (a s : Nat) (E : Int)
    (hs : s = (max ((bitLength a : Int) - 53 + E) (-1074) - E).toNat) (h0 : s ≠ 0)
    (ha : a ≠ 0) (h : dyadic (a : Int) E ≤ 100) : E + s ≤ -46 := by
  have hb := bitLength_add_le a E ha h
  omega

theorem round_against_integers (a s : Nat) (E : Int)
    (hs : s = (max ((bitLength a : Int) - 53 + E) (-1074) - E).toNat)
    (h : dyadic (a : Int) E ≤ 100) (j : Nat) :
    ((j : ℚ) ≤ dyadic (a : Int) E → (j : ℚ) ≤ dyadic (roundNearestEven a s : Nat) (E + s)) ∧
    (dyadic (a : Int) E ≤ (j : ℚ) → dyadic (roundNearestEven a s : Nat) (E + s) ≤ (j : ℚ)) := by
  by_cases h0 : s = 0
  · rw [h0, roundNearestEven_zero]
    simp
  · by_cases ha : a = 0
    · subst ha
      rw [roundNearestEven_of_zero]
      simp [dyadic]
    · have ht := round_exponent_nonpos a s E hs h0 ha h
      obtain ⟨T, hT⟩ : ∃ T : Nat, E + s = -(T : Int) := ⟨(-(E + s)).toNat, by omega⟩
      have hE : E = -((T + s : Nat) : Int) := by push_cast; omega
      rw [hT]
      rw [hE, natCast_le_dyadic_neg, natCast_le_dyadic_neg, dyadic_neg_le_natCast,
        dyadic_neg_le_natCast]
      constructor
      · intro hj
        apply le_roundNearestEven
        rw [Nat.mul_assoc, ← pow_add]
        exact hj
      · intro hj
        apply roundNearestEven_le
        rw [Nat.mul_assoc, ← pow_add]
        exact hj

theorem truncDyadic_natCast (q : Nat) (t : Int) :
    truncDyadic (q : Int) t = ⌊dyadic (q : Int) t⌋ := by
  unfold truncDyadic
  split_ifs with h1 h2
  · have hd : dyadic (q : Int) t = (((q : Int) * 2 ^ t.toNat : Int) : ℚ) := by
      unfold dyadic
      push_cast
      congr 1
      rw [← zpow_natCast]
      congr 1
      omega
    rw [hd, Int.floor_intCast]
  · have ht : t = -(((-t).toNat : Nat) : Int) := by omega
    have hd : dyadic (q : Int) t = ((q : ℚ) / ((2 ^ (-t).toNat : Nat) : ℚ)) := by
      conv_lhs => rw [ht]
      rw [dyadic_natCast_neg]
      push_cast
      rfl
    rw [hd, Rat.floor_natCast_div_natCast, Int.natAbs_ofNat]
    norm_cast
  · exact absurd (Int.natCast_nonneg q) h2

theorem roundNearestEven_error (a s : Nat) :
    2 * (roundNearestEven a s * 2 ^ s) ≤ 2 * a + 2 ^ s := by
  have hdm := Nat.div_add_mod a (2 ^ s)
  have hc : 2 ^ s * (a / 2 ^ s) = a / 2 ^ s * 2 ^ s := Nat.mul_comm _ _
  have hs : (a / 2 ^ s + 1) * 2 ^ s = a / 2 ^ s * 2 ^ s + 2 ^ s := by ring
  unfold roundNearestEven
  simp only
  split_ifs
  · omega
  · rw [hs]; omega
  · omega
  · rw [hs]; omega

theorem round_error (a s : Nat) (E : Int)
    (hs : s = (max ((bitLength a : Int) - 53 + E) (-1074) - E).toNat)
    (h : dyadic (a : Int) E ≤ 100) :
    dyadic (roundNearestEven a s : Nat) (E + s) ≤ dyadic (a : Int) E + 1 / 2 ^ 47 := by
  by_cases h0 : s = 0
  · rw [h0, roundNearestEven_zero]
    simp
  · by_cases ha : a = 0
    · subst ha
      rw [roundNearestEven_of_zero]
      simp [dyadic]
    · have ht := round_exponent_nonpos a s E hs h0 ha h
      obtain ⟨T, hT⟩ : ∃ T : Nat, E + s = -(T : Int) := ⟨(-(E + s)).toNat, by omega⟩
      have hE : E = -((T + s : Nat) : Int) := by push_cast; omega
      have hT46 : 46 ≤ T := by omega
      rw [hT, hE, dyadic_natCast_neg, dyadic_natCast_neg, pow_add]
      have herr : (2 : ℚ) * ((roundNearestEven a s : ℚ) * 2 ^ s) ≤ 2 * (a : ℚ) + 2 ^ s := by
        exact_mod_cast roundNearestEven_error a s
      have hpow : (2 : ℚ) ^ 47 ≤ 2 * 2 ^ T := by
        rw [← pow_succ']
        exact pow_le_pow_right₀ (by norm_num) (by omega)
      have hhalf : (1 : ℚ) / (2 * 2 ^ T) ≤ 1 / 2 ^ 47 :=
        one_div_le_one_div_of_le (by positivity) hpow
      have hu : (0 : ℚ) < 2 ^ T := by positivity
      have hw : (0 : ℚ) < 2 ^ s := by positivity
      generalize (2 : ℚ) ^ T = u at *
      generalize (2 : ℚ) ^ s = w at *
      generalize (roundNearestEven a s : ℚ) = q at *
      generalize (a : ℚ) = x at *
      have hdiff : x / (u * w) + 1 / (2 * u) - q / u = (2 * x + w - 2 * (q * w)) / (2 * u * w) := by
        field_simp
        ring
      have hnn : 0 ≤ x / (u * w) + 1 / (2 * u) - q / u := by
        rw [hdiff]
        apply div_nonneg
        · linarith
        · positivity
      linarith

theorem hundred_mul_dyadic (m e : Int) (hm : 0 ≤ m) :
    dyadic ((25 * m).natAbs : Nat) (2 + e) = 100 * dyadic m e := by
  have hn : (((25 * m).natAbs : Nat) : Int) = 25 * m := Int.natAbs_of_nonneg (by omega)
  unfold dyadic
  rw [hn, zpow_add₀ (by norm_num)]
  push_cast
  ring

theorem dyadic_nonneg_iff (m e : Int) : 0 ≤ dyadic m e ↔ 0 ≤ m := by
  unfold dyadic
  have hp : (0 : ℚ) < (2 : ℚ) ^ e := by positivity
  constructor
  · intro h
    by_contra hm
    have hneg : (m : ℚ) < 0 := by exact_mod_cast (not_le.mp hm)
    have := mul_neg_of_neg_of_pos hneg hp
    linarith
  · intro h
    have : (0 : ℚ) ≤ (m : ℚ) := by exact_mod_cast h
    positivity

theorem percent64_finite (m e : Int) (h0 : 0 ≤ dyadic m e) (h1 : dyadic m e ≤ 1) :
    ∃ p : Int, percent64 (Float64.finite m e) = some p ∧
      ⌊100 * dyadic m e⌋ ≤ p ∧ p ≤ ⌊100 * dyadic m e⌋ + 1 ∧
      (p : ℚ) ≤ 100 * dyadic m e + 1 / 2 ^ 47 ∧ 0 ≤ p ∧ p ≤ 100 := by
  have hm : 0 ≤ m := (dyadic_nonneg_iff m e).mp h0
  have hX := hundred_mul_dyadic m e hm
  have hn : ¬ (25 * m < 0) := by omega
  set a := (25 * m).natAbs with ha
  set E : Int := 2 + e with hE
  set s := (max ((bitLength a : Int) - 53 + E) (-1074) - E).toNat with hs
  set q := roundNearestEven a s with hq
  have hX100 : dyadic (a : Int) E ≤ 100 := by rw [hX]; linarith
  have hmono := round_against_integers a s E hs hX100
  have herr := round_error a s E hs hX100
  have hY100 : dyadic (q : Int) (E + s) ≤ 100 := by
    have := (hmono 100).2 (by exact_mod_cast hX100)
    exact_mod_cast this
  have hY0 : 0 ≤ dyadic (q : Int) (E + s) := (dyadic_nonneg_iff _ _).mpr (Int.natCast_nonneg q)
  have hover : ¬ (q ≠ 0 ∧ 1025 ≤ (bitLength q : Int) + (E + s)) := by
    rintro ⟨hq0, hbig⟩
    have := bitLength_add_le q (E + s) hq0 hY100
    omega
  have hmul : hundred.mul (Float64.finite m e) = Float64.finite (q : Int) (E + s) := by
    show round64 (25 * m) (2 + e) = _
    unfold round64
    simp only [← ha, ← hE, ← hs, ← hq]
    rw [if_neg hover, if_neg hn]
  have hp0 : 0 ≤ ⌊dyadic (q : Int) (E + s)⌋ := Int.floor_nonneg.mpr hY0
  have hp100 : ⌊dyadic (q : Int) (E + s)⌋ ≤ 100 := by
    have : ⌊dyadic (q : Int) (E + s)⌋ ≤ ⌊(100 : ℚ)⌋ := Int.floor_mono hY100
    simpa using this
  refine ⟨⌊dyadic (q : Int) (E + s)⌋, ?_, ?_, ?_, ?_, hp0, hp100⟩
  · unfold percent64
    rw [hmul]
    simp only [Float64.toInt, truncDyadic_natCast]
    rw [if_pos ⟨by omega, by omega⟩]
  · rw [← hX]
    have hk0 : 0 ≤ ⌊dyadic (a : Int) E⌋ := Int.floor_nonneg.mpr (by rw [hX]; linarith)
    obtain ⟨k, hk⟩ := Int.eq_ofNat_of_zero_le hk0
    rw [hk]
    apply Int.le_floor.mpr
    have hle : ((k : Int) : ℚ) ≤ dyadic (a : Int) E := by
      rw [← hk]; exact Int.floor_le _
    have := (hmono k).1 (by exact_mod_cast hle)
    exact_mod_cast this
  · rw [← hX]
    have hk0 : 0 ≤ ⌊dyadic (a : Int) E⌋ := Int.floor_nonneg.mpr (by rw [hX]; linarith)
    obtain ⟨k, hk⟩ := Int.eq_ofNat_of_zero_le hk0
    rw [hk]
    have hlt : dyadic (a : Int) E ≤ ((k + 1 : Nat) : ℚ) := by
      have := Int.lt_floor_add_one (dyadic (a : Int) E)
      rw [hk] at this
      push_cast at this ⊢
      linarith
    have hY := (hmono (k + 1)).2 hlt
    have : ⌊dyadic (q : Int) (E + s)⌋ ≤ ⌊((k + 1 : Nat) : ℚ)⌋ := Int.floor_mono hY
    rw [Int.floor_natCast] at this
    exact_mod_cast this
  · rw [← hX]
    have := Int.floor_le (dyadic (q : Int) (E + s))
    linarith

/-! ## The claims -/

/-- C1: the wasted space `Render` computes is the `int64` sum of `CumulativeSize` over
every entry of the slice, it is what `humanize.Bytes` receives after conversion to
`uint64`, it is 0 for an empty slice, and when every `CumulativeSize` is non-negative and
the total is below `2^63` both the `int64` value and its `uint64` conversion are the exact
sum. -/
theorem render_wastedSpace_sum (env : Env G V K F) (v : ImageDetails G V K F N) :
    (v.Render env).2.2.wastedSpace =
        wrapInt64 ((v.inefficiencies.map (fun d => d.CumulativeSize)).sum) ∧
      (v.Render env).2.2.wastedSpaceStr =
        sprintfPair (env.Header "Potential wasted space:")
          (env.humanizeBytes (toUint64 (v.Render env).2.2.wastedSpace)) ∧
      (v.inefficiencies = [] → toUint64 (v.Render env).2.2.wastedSpace = 0) ∧
      ((∀ d ∈ v.inefficiencies, 0 ≤ d.CumulativeSize) →
        (v.inefficiencies.map (fun d => d.CumulativeSize)).sum < 2 ^ 63 →
        (v.Render env).2.2.wastedSpace =
            (v.inefficiencies.map (fun d => d.CumulativeSize)).sum ∧
          (toUint64 (v.Render env).2.2.wastedSpace : Int) =
            (v.inefficiencies.map (fun d => d.CumulativeSize)).sum) := by
  have hw := (renderTexts_loop env v).1
  have hr : (v.Render env).2.2 = renderTexts env v := rfl
  rw [hr]
  refine ⟨hw, rfl, ?_, ?_⟩
  · intro he
    rw [hw, he]
    rfl
  · intro hnn hlt
    have h0 : 0 ≤ (v.inefficiencies.map (fun d => d.CumulativeSize)).sum := by
      apply List.sum_nonneg
      intro x hx
      obtain ⟨d, hd, rfl⟩ := List.mem_map.mp hx
      exact hnn d hd
    have e : (renderTexts env v).wastedSpace =
        (v.inefficiencies.map (fun d => d.CumulativeSize)).sum := by
      rw [hw]
      exact wrapInt64_of_range _ (by omega) hlt
    refine ⟨e, ?_⟩
    rw [e]
    exact toUint64_of_nonneg _ h0 (by omega)

/-- The slice `[{path "/a", cumulativeSize 100}]` gives a wasted space of 100. -/
theorem render_wastedSpace_sum_witness :
    (∀ d ∈ sampleDetails.inefficiencies, 0 ≤ d.CumulativeSize) ∧
      (sampleDetails.inefficiencies.map (fun d => d.CumulativeSize)).sum < 2 ^ 63 ∧
      (sampleDetails.Render sampleEnv).2.2.wastedSpace = 100 ∧
      (toUint64 (sampleDetails.Render sampleEnv).2.2.wastedSpace : Int) = 100 :=
  ⟨by decide, by decide,
    (render_wastedSpace_sum sampleEnv sampleDetails).2.2.2 (by decide) (by decide)⟩

/-- C2: `Render` traverses the slice in reverse: the report is the header row followed
by the rows of the entries read at loop indices `0, 1, ..., n-1`, the entry read at index
`i` being entry `n-1-i` of the slice; so for a slice ascending by `CumulativeSize` (ties
ascending by path) an earlier row never has a smaller `CumulativeSize` than a later one, and
of two rows with equal `CumulativeSize` the earlier one has the greater or equal path. -/
theorem render_rows_reversed (env : Env G V K F) (v : ImageDetails G V K F N) :
    (v.Render env).2.2.inefficiencyReport =
        env.SprintfVia (env.Header analysisTemplate) "Count" "Total Space" "Path" ++
          String.join (List.ofFn (fun i : Fin v.inefficiencies.length =>
            reportRow env (dataAt v.inefficiencies i.val i.isLt))) ∧
      (∀ (i : Nat) (h : i < v.inefficiencies.length),
        some (dataAt v.inefficiencies i h) =
          v.inefficiencies[v.inefficiencies.length - 1 - i]?) ∧
      (v.inefficiencies.Pairwise ascendingEntry →
        ∀ (i j : Nat) (hj : j < v.inefficiencies.length) (hij : i < j),
          (dataAt v.inefficiencies j hj).CumulativeSize ≤
              (dataAt v.inefficiencies i (hij.trans hj)).CumulativeSize ∧
            ((dataAt v.inefficiencies j hj).CumulativeSize =
                (dataAt v.inefficiencies i (hij.trans hj)).CumulativeSize →
              (dataAt v.inefficiencies j hj).Path ≤
                (dataAt v.inefficiencies i (hij.trans hj)).Path)) := by
  refine ⟨?_, ?_, ?_⟩
  · have hr : (v.Render env).2.2 = renderTexts env v := rfl
    rw [hr, (renderTexts_loop env v).2]
    congr 2
    apply List.ext_getElem
    · simp
    · intro n h1 h2
      simp only [List.getElem_map, List.getElem_reverse, List.getElem_ofFn]
      rfl
  · intro i h
    have hlt : v.inefficiencies.length - 1 - i < v.inefficiencies.length := by omega
    rw [List.getElem?_eq_getElem hlt]
    rfl
  · intro hs i j hj hij
    have hp := List.pairwise_iff_getElem.mp hs (v.inefficiencies.length - 1 - j)
      (v.inefficiencies.length - 1 - i) (by omega) (by omega) (by omega)
    have ei : dataAt v.inefficiencies i (hij.trans hj) =
        v.inefficiencies[v.inefficiencies.length - 1 - i] := rfl
    have ej : dataAt v.inefficiencies j hj =
        v.inefficiencies[v.inefficiencies.length - 1 - j] := rfl
    rw [ei, ej]
    rcases hp with hlt | ⟨he, hle⟩
    · exact ⟨le_of_lt hlt, fun h => absurd h (ne_of_lt hlt)⟩
    · exact ⟨le_of_eq he, fun _ => hle⟩

/-- On the slice `/b: 10`, `/a: 100`, `/c: 100` the first row is `/c` and the second `/a`:
equal sizes, paths descending. -/
theorem render_rows_reversed_witness :
    sampleSlice.Pairwise ascendingEntry ∧
      (dataAt sampleSlice 1 (by decide)).CumulativeSize ≤
        (dataAt sampleSlice 0 (by decide)).CumulativeSize ∧
      (dataAt sampleSlice 1 (by decide)).Path ≤ (dataAt sampleSlice 0 (by decide)).Path :=
  have hs : sampleSlice.Pairwise ascendingEntry := by
    simp [sampleSlice, ascendingEntry, String.le_iff_toList_le]
    decide
  have h := (render_rows_reversed sampleEnv
    { sampleDetails with inefficiencies := sampleSlice }).2.2 hs 0 1 (by decide) (by decide)
  ⟨hs, h.1, h.2 (by decide)⟩

/-- C3: the report is the header row followed by one row per entry of the slice, each
entry exactly once (the rows are those of a permutation of the slice, here its reversal);
the row of an entry shows the number of its nodes, its `CumulativeSize` (converted to
`uint64`, which leaves a non-negative `int64` unchanged) and its path; for an empty slice
the report is the header row alone. -/
theorem render_report_rows (env : Env G V K F) (v : ImageDetails G V K F N) :
    (v.Render env).2.2.inefficiencyReport =
        env.SprintfVia (env.Header analysisTemplate) "Count" "Total Space" "Path" ++
          String.join (v.inefficiencies.reverse.map (reportRow env)) ∧
      (v.inefficiencies.reverse.map (reportRow env)).length = v.inefficiencies.length ∧
      v.inefficiencies.reverse.Perm v.inefficiencies ∧
      (∀ d : EfficiencyData N, reportRow env d =
        padLeft 5 (toString d.Nodes.length) ++ "  " ++
          padLeft 12 (env.humanizeBytes (toUint64 d.CumulativeSize)) ++ "  " ++ d.Path ++ "\n") ∧
      (∀ d : EfficiencyData N, 0 ≤ d.CumulativeSize → d.CumulativeSize < 2 ^ 63 →
        (toUint64 d.CumulativeSize : Int) = d.CumulativeSize) ∧
      (({ v with inefficiencies := [] } : ImageDetails G V K F N).Render env).2.2.inefficiencyReport
        = env.SprintfVia (env.Header analysisTemplate) "Count" "Total Space" "Path" := by
  refine ⟨(renderTexts_loop env v).2, by simp, List.reverse_perm _, fun _ => rfl, ?_, ?_⟩
  · intro d h0 h1
    exact toUint64_of_nonneg _ h0 (by omega)
  · have h := (renderTexts_loop env ({ v with inefficiencies := [] } : ImageDetails G V K F N)).2
    have hr : (({ v with inefficiencies := [] } : ImageDetails G V K F N).Render env).2.2 =
        renderTexts env { v with inefficiencies := [] } := rfl
    rw [hr, h]
    apply String.ext
    simp [String.data_append, String.data_join]

/-- The row of the entry `/a` with two nodes and 100 wasted bytes shows 100. -/
theorem render_report_rows_witness :
    (0 : Int) ≤ 100 ∧ (100 : Int) < 2 ^ 63 ∧
      (toUint64 (EfficiencyData.mk "/a" [(), ()] 100).CumulativeSize : Int) = 100 :=
  ⟨by decide, by decide,
    (render_report_rows sampleEnv sampleDetails).2.2.2.2.1
      (EfficiencyData.mk "/a" [(), ()] 100) (by decide) (by decide)⟩

/-- C4, as the code has it: for every finite `float64` score `m * 2 ^ e` in [0, 1] the
percentage `Render` shows is `int(100.0 * score)` evaluated in `float64` arithmetic, the
product being rounded to the nearest `float64` (ties to even) before it is truncated.  That
integer is at least `floor(100 * score)` and exceeds `100 * score` by at most `2 ^ -47`, so
it is `floor(100 * score)` or `floor(100 * score) + 1`; it lies between 0 and 100; it is
100 for the score 1.0 and 33 for the example score `1 - 100.0/150`. -/
theorem render_percentage (env : Env G V K Float64) (v : ImageDetails G V K Float64 N)
    (m e : Int) (hv : v.efficiency = Float64.finite m e)
    (h0 : 0 ≤ dyadic m e) (h1 : dyadic m e ≤ 1) :
    ∃ p : Int, percent64 v.efficiency = some p ∧
      (v.Render env.withFloat64).2.2.efficiencyStr =
        sprintfPercent (env.Header "Image efficiency score:") p ∧
      ⌊100 * dyadic m e⌋ ≤ p ∧ p ≤ ⌊100 * dyadic m e⌋ + 1 ∧
      (p : ℚ) ≤ 100 * dyadic m e + 1 / 2 ^ 47 ∧
      0 ≤ p ∧ p ≤ 100 ∧
      (v.efficiency = one64 → p = 100) ∧ (v.efficiency = exampleScore → p = 33) := by
  obtain ⟨p, hp, hlo, hhi, herr, hp0, hp100⟩ := percent64_finite m e h0 h1
  rw [← hv] at hp
  refine ⟨p, hp, ?_, hlo, hhi, herr, hp0, hp100, ?_, ?_⟩
  · show sprintfPercent (env.Header "Image efficiency score:")
      ((percent64 v.efficiency).getD (env.percent v.efficiency)) = _
    rw [hp]
    rfl
  · intro h
    rw [h] at hp
    have h100 : percent64 one64 = some 100 := by decide
    rw [h100] at hp
    exact (Option.some.inj hp).symm
  · intro h
    rw [h] at hp
    have h33 : percent64 exampleScore = some 33 := by decide
    rw [h33] at hp
    exact (Option.some.inj hp).symm

/-- The example image, whose score `1 - 100.0/150` is the `float64`
`3002399751580331 * 2 ^ -53` (one minus the `float64` nearest to 2/3), shows 33 %. -/
theorem render_percentage_witness :
    exampleScore.isBinary64 ∧
      |dyadic 6004799503160661 (-53) - 100 / 150| < 1 / 2 ^ 54 ∧
      dyadic 3002399751580331 (-53) = 1 - dyadic 6004799503160661 (-53) ∧
      0 ≤ dyadic 3002399751580331 (-53) ∧ dyadic 3002399751580331 (-53) ≤ 1 ∧
      ((sampleScored exampleScore).Render sampleEnv64.withFloat64).2.2.efficiencyStr =
        "Image efficiency score: 33 %" :=
  have h0 : 0 ≤ dyadic 3002399751580331 (-53) := (dyadic_nonneg_iff _ _).mpr (by decide)
  have h1 : dyadic 3002399751580331 (-53) ≤ 1 := by
    simp only [dyadic]
    norm_num
  ⟨⟨by decide, by decide, by decide⟩,
    by simp only [dyadic]; rw [abs_lt]; constructor <;> norm_num,
    by simp only [dyadic]; norm_num, h0, h1, by
    obtain ⟨p, -, hstr, -, -, -, -, -, -, h33⟩ :=
      render_percentage sampleEnv64 (sampleScored exampleScore) 3002399751580331 (-53) rfl h0 h1
    rw [hstr, h33 rfl]
    rfl⟩

/-- C4 refuted as stated: the `float64` nearest to 0.03, `1080863910568919 * 2 ^ -55`, is a
score in [0, 1] for which `floor(100 * score)` is 2 while `int(100.0 * score)` is 3, and
`Render` shows 3 %: the product `3 - 2 ^ -53` is not a `float64` and rounds to 3.0.  At the
score `377176468792279 * 2 ^ -49` the product `67 - 2 ^ -47` lies midway between two
`float64` values and goes to the even one, 67.0, where `floor(100 * score)` is 66. -/
theorem render_percentage_not_floor :
    threeHundredths = Float64.finite 1080863910568919 (-55) ∧
      threeHundredths.isBinary64 ∧
      |dyadic 1080863910568919 (-55) - 3 / 100| < 1 / 2 ^ 59 ∧
      0 ≤ dyadic 1080863910568919 (-55) ∧ dyadic 1080863910568919 (-55) ≤ 1 ∧
      100 * dyadic 1080863910568919 (-55) = 3 - 1 / 2 ^ 53 ∧
      ⌊100 * dyadic 1080863910568919 (-55)⌋ = 2 ∧
      hundred.mul threeHundredths = Float64.finite 6755399441055744 (-51) ∧
      dyadic 6755399441055744 (-51) = 3 ∧
      percent64 threeHundredths = some 3 ∧
      ((sampleScored threeHundredths).Render sampleEnv64.withFloat64).2.2.efficiencyStr =
        "Image efficiency score: 3 %" ∧
      tieScore = Float64.finite 377176468792279 (-49) ∧
      tieScore.isBinary64 ∧
      0 ≤ dyadic 377176468792279 (-49) ∧ dyadic 377176468792279 (-49) ≤ 1 ∧
      100 * dyadic 377176468792279 (-49) = 67 - 1 / 2 ^ 47 ∧
      ⌊100 * dyadic 377176468792279 (-49)⌋ = 66 ∧
      percent64 tieScore = some 67 ∧
      ((sampleScored tieScore).Render sampleEnv64.withFloat64).2.2.efficiencyStr =
        "Image efficiency score: 67 %" := by
  refine ⟨rfl, ⟨by decide, by decide, by decide⟩, ?_, ?_, ?_, ?_, ?_, by decide, ?_, by decide,
    by decide, rfl, ⟨by decide, by decide, by decide⟩, ?_, ?_, ?_, ?_, by decide, by decide⟩
  · simp only [dyadic]
    rw [abs_lt]
    constructor <;> norm_num
  · exact (dyadic_nonneg_iff _ _).mpr (by decide)
  · simp only [dyadic]
    norm_num
  · simp only [dyadic]
    norm_num
  · rw [Int.floor_eq_iff]
    simp only [dyadic]
    constructor <;> norm_num
  · simp only [dyadic]
    norm_num
  · exact (dyadic_nonneg_iff _ _).mpr (by decide)
  · simp only [dyadic]
    norm_num
  · simp only [dyadic]
    norm_num
  · rw [Int.floor_eq_iff]
    simp only [dyadic]
    constructor <;> norm_num

/-- C5: `Render`, `Update` and `OnLayoutChange` return the state they were given, so
`imageName`, `imageSize`, `efficiency` and the `inefficiencies` slice are unchanged; the
screen update scheduled by `Render` changes the header and body views only; and a second
`Render`, right away or after that update has run, computes the same texts. -/
theorem render_read_only (env : Env G V K F) (v : ImageDetails G V K F N) :
    analysisResults (v.Render env).1 = analysisResults v ∧
      (v.Render env).2.1 = none ∧
      analysisResults v.Update.1 = analysisResults v ∧
      v.Update.2 = none ∧
      analysisResults (v.OnLayoutChange env).1 = analysisResults v ∧
      (v.OnLayoutChange env).2.2 = some (v.Render env).2.2 ∧
      ((v.Render env).1.Render env).2.2 = (v.Render env).2.2 ∧
      (∀ (t : RenderTexts) (r : ImageDetails G V K F N × List LogEntry × GoError),
        renderUpdate env t (v.Render env).1 = Outcome.returned r →
          analysisResults r.1 = analysisResults v ∧
            (r.1.Render env).2.2 = (v.Render env).2.2) := by
  refine ⟨rfl, rfl, rfl, rfl, rfl, rfl, rfl, ?_⟩
  intro t r h
  have hv : (v.Render env).1 = v := rfl
  rw [hv] at h
  unfold renderUpdate at h
  cases hb : v.body with
  | none => simp [hb] at h
  | some b =>
    cases hh : v.header with
    | none => simp [hb, hh] at h
    | some hd =>
      simp only [hb, hh] at h
      cases h
      exact ⟨rfl, rfl⟩

set_option maxRecDepth 8000 in
/-- After the update scheduled by `Render` has run on the sample state, the analysis results
are those of before and `Render` computes the same texts. -/
theorem render_read_only_witness :
    renderUpdate sampleEnv (sampleReady.Render sampleEnv).2.2 (sampleReady.Render sampleEnv).1 =
        Outcome.returned (sampleShown, [], none) ∧
      analysisResults sampleShown = analysisResults sampleReady ∧
      (sampleShown.Render sampleEnv).2.2 = (sampleReady.Render sampleEnv).2.2 :=
  ⟨rfl, (render_read_only sampleEnv sampleReady).2.2.2.2.2.2.2
    (sampleReady.Render sampleEnv).2.2 (sampleShown, [], none) rfl⟩

/-- C6, as the code has it: `IsVisible` is true exactly when the body view is assigned.  It
is false while `body` is nil, `Setup` panics when handed a nil view, and after every `Setup`
that returns, with nil or with the error of `key.GenerateBindings`, it is true. -/
theorem isVisible_iff_body_assigned (env : Env G V K F) (v : ImageDetails G V K F N) :
    (v.IsVisible = true ↔ ∃ b, v.body = some b) ∧
      (v.body = none → v.IsVisible = false) ∧
      (∀ (body header : Option (View V))
          (r : ImageDetails G V K F N × List LogEntry × GoError),
        v.Setup env body header = Outcome.returned r → r.1.IsVisible = true) ∧
      (∀ b h : View V, ∃ r : ImageDetails G V K F N × List LogEntry × GoError,
        v.Setup env (some b) (some h) = Outcome.returned r ∧
          r.2.2 = (env.GenerateBindings v.gui "imageDetails" (setupInfos env v)).2 ∧
          r.1.IsVisible = true) ∧
      (∀ header : Option (View V), v.Setup env none header = Outcome.panicked) ∧
      (∀ b : View V, v.Setup env (some b) none = Outcome.panicked) := by
  refine ⟨?_, ?_, ?_, ?_, fun _ => rfl, fun _ => rfl⟩
  · unfold ImageDetails.IsVisible
    exact Option.isSome_iff_exists
  · intro h
    unfold ImageDetails.IsVisible
    rw [h]
    rfl
  · intro body header r h
    unfold ImageDetails.Setup at h
    cases body with
    | none => simp at h
    | some b =>
      cases header with
      | none => simp at h
      | some hd =>
        simp only at h
        split at h <;> (cases h; rfl)
  · intro b h
    unfold ImageDetails.Setup
    simp only
    split
    · rename_i err he
      exact ⟨_, rfl, he.symm, rfl⟩
    · rename_i he
      exact ⟨_, rfl, he.symm, rfl⟩

/-- On the sample state `Setup` succeeds and the pane is visible afterwards, not before. -/
theorem isVisible_iff_body_assigned_witness :
    sampleDetails.body = none ∧ sampleDetails.IsVisible = false ∧
      sampleDetails.Setup sampleEnv (some sampleView) (some sampleView) =
        Outcome.returned (sampleReady, [setupTrace], none) ∧
      sampleReady.IsVisible = true :=
  ⟨rfl, (isVisible_iff_body_assigned sampleEnv sampleDetails).2.1 rfl, rfl,
    (isVisible_iff_body_assigned sampleEnv sampleDetails).2.2.1 (some sampleView)
      (some sampleView) (sampleReady, [setupTrace], none) rfl⟩

/-- A `Setup` whose key bindings cannot be generated returns that error, and `IsVisible` is
true afterwards all the same. -/
theorem isVisible_after_failed_setup :
    sampleDetails.IsVisible = false ∧
      sampleDetails.Setup failingBindingsEnv (some sampleView) (some sampleView) =
        Outcome.returned (sampleReady, [setupTrace], some "binding failed") ∧
      sampleReady.IsVisible = true :=
  ⟨rfl, rfl, rfl⟩

/-- C7: the text handed to the body view is the six items image name, total image size,
potential wasted space, efficiency score, the one-character spacer `" "` and the
inefficiency report, in that order, joined by newlines; the update scheduled by `Render`
clears the body view and prints that text to it; none of the first five items is empty; and
when `format.Header` and `humanize.Bytes` add no newline and the image name has none, the
first five lines of the text are exactly those five items, so none of them is empty. -/
theorem render_body_text (env : Env G V K F) (v : ImageDetails G V K F N) :
    bodyLines (v.Render env).2.2 =
        [sprintfPair (env.Header "Image name:") v.imageName,
          sprintfPair (env.Header "Total Image size:") (env.humanizeBytes v.imageSize),
          sprintfPair (env.Header "Potential wasted space:")
            (env.humanizeBytes (toUint64 (v.Render env).2.2.wastedSpace)),
          sprintfPercent (env.Header "Image efficiency score:") (env.percent v.efficiency),
          " ",
          (v.Render env).2.2.inefficiencyReport] ∧
      bodyText (v.Render env).2.2 = "\n".intercalate (bodyLines (v.Render env).2.2) ∧
      (∀ b h : View V, v.body = some b → v.header = some h →
        ∃ r : ImageDetails G V K F N × List LogEntry × GoError,
          renderUpdate env (v.Render env).2.2 v = Outcome.returned r ∧
            r.1.body = some (env.Fprintln (env.viewClear b) (bodyText (v.Render env).2.2)).1) ∧
      (∀ s ∈ (bodyLines (v.Render env).2.2).take 5, s ≠ "") ∧
      ((∀ s : String, '\n' ∉ s.data → '\n' ∉ (env.Header s).data) →
        (∀ n : Nat, '\n' ∉ (env.humanizeBytes n).data) →
        '\n' ∉ v.imageName.data →
        ((bodyText (v.Render env).2.2).data.splitOn '\n').take 5 =
            ((bodyLines (v.Render env).2.2).take 5).map String.data ∧
          ∀ l ∈ ((bodyText (v.Render env).2.2).data.splitOn '\n').take 5, l ≠ []) := by
  have hne : ∀ s ∈ (bodyLines (v.Render env).2.2).take 5, s ≠ "" := by
    intro s hs
    have hs2 : s = sprintfPair (env.Header "Image name:") v.imageName ∨
        s = sprintfPair (env.Header "Total Image size:") (env.humanizeBytes v.imageSize) ∨
        s = sprintfPair (env.Header "Potential wasted space:")
          (env.humanizeBytes (toUint64 (v.Render env).2.2.wastedSpace)) ∨
        s = sprintfPercent (env.Header "Image efficiency score:") (env.percent v.efficiency) ∨
        s = " " := by
      simpa [bodyLines, ImageDetails.Render, renderTexts] using hs
    rcases hs2 with rfl | rfl | rfl | rfl | rfl
    · exact sprintfPair_ne_empty _ _
    · exact sprintfPair_ne_empty _ _
    · exact sprintfPair_ne_empty _ _
    · exact sprintfPercent_ne_empty _ _
    · decide
  refine ⟨rfl, rfl, ?_, hne, ?_⟩
  · intro b h hb hh
    unfold renderUpdate
    simp only [hb, hh]
    exact ⟨_, rfl, rfl⟩
  · intro hH hB hN
    have e := bodyText_lines (v.Render env).2.2
      (sprintfPair_no_newline _ _ (hH _ (by decide)) hN)
      (sprintfPair_no_newline _ _ (hH _ (by decide)) (hB _))
      (sprintfPair_no_newline _ _ (hH _ (by decide)) (hB _))
      (sprintfPercent_no_newline _ _ (hH _ (by decide)))
    have e5 : ((bodyText (v.Render env).2.2).data.splitOn '\n').take 5 =
        ((bodyLines (v.Render env).2.2).take 5).map String.data := by
      rw [e]
      rfl
    refine ⟨e5, ?_⟩
    intro l hl
    rw [e5] at hl
    obtain ⟨s, hs, rfl⟩ := List.mem_map.mp hl
    intro h0
    exact hne s hs (String.ext h0)

set_option maxRecDepth 8000 in
/-- On the sample state the body view receives five non-empty lines before the report. -/
theorem render_body_text_witness :
    (∀ s : String, '\n' ∉ s.data → '\n' ∉ (sampleEnv.Header s).data) ∧
      (∀ n : Nat, '\n' ∉ (sampleEnv.humanizeBytes n).data) ∧
      '\n' ∉ sampleReady.imageName.data ∧
      ((bodyText (sampleReady.Render sampleEnv).2.2).data.splitOn '\n').take 5 =
        ["Image name: example:latest".data, "Total Image size: 150 B".data,
          "Potential wasted space: 100 B".data, "Image efficiency score: 33 %".data, [' ']] :=
  have hH : ∀ s : String, '\n' ∉ s.data → '\n' ∉ (sampleEnv.Header s).data := fun _ h => h
  have hB : ∀ n : Nat, '\n' ∉ (sampleEnv.humanizeBytes n).data := fun n h =>
    (List.mem_append.mp h).elim (natRepr_no_newline n) (by decide)
  ⟨hH, hB, by decide,
    ((render_body_text sampleEnv sampleReady).2.2.2.2 hH hB (by decide)).1⟩

/-- C8, as the code has it: once `Setup` has assigned the body view and the logger, each of
`CursorUp`, `CursorDown`, `PageUp` and `PageDown` returns nil whatever the cursor helper
returned, nil or an error; `PageDown` hands the helper the height of the body view and
`PageUp` its negation, which for a height above the least `int` is the opposite number. -/
theorem handlers_return_nil (env : Env G V K F) (v : ImageDetails G V K F N) (b : View V)
    (l : Logger) (hb : v.body = some b) (hl : v.logger = some l) :
    (∀ r : (G × View V) × GoError, env.CursorUp v.gui b = Outcome.returned r →
        ∃ (s : ImageDetails G V K F N) (logs : List LogEntry),
          v.CursorUp env = Outcome.returned (s, logs, none)) ∧
      (∀ r : (G × View V) × GoError, env.CursorDown v.gui b = Outcome.returned r →
        ∃ (s : ImageDetails G V K F N) (logs : List LogEntry),
          v.CursorDown env = Outcome.returned (s, logs, none)) ∧
      (∀ r : (G × View V) × GoError,
        env.CursorStep v.gui b (negInt (env.viewSize b).2) = Outcome.returned r →
        ∃ (s : ImageDetails G V K F N) (logs : List LogEntry),
          v.PageUp env = Outcome.returned (s, logs, none)) ∧
      (∀ r : (G × View V) × GoError,
        env.CursorStep v.gui b (env.viewSize b).2 = Outcome.returned r →
        ∃ (s : ImageDetails G V K F N) (logs : List LogEntry),
          v.PageDown env = Outcome.returned (s, logs, none)) ∧
      v.PageUp env =
        (match env.CursorStep v.gui b (negInt (env.viewSize b).2) with
          | Outcome.panicked => Outcome.panicked
          | Outcome.returned r =>
            afterMove { v with gui := r.1.1, body := some r.1.2 } r.2
              ("couldn't move the cursor up by " ++ toString (env.viewSize b).2 ++ " steps")) ∧
      v.PageDown env =
        (match env.CursorStep v.gui b (env.viewSize b).2 with
          | Outcome.panicked => Outcome.panicked
          | Outcome.returned r =>
            afterMove { v with gui := r.1.1, body := some r.1.2 } r.2
              ("couldn't move the cursor down by " ++ toString (env.viewSize b).2 ++ " steps")) ∧
      (-(2 ^ 63) < (env.viewSize b).2 → (env.viewSize b).2 < 2 ^ 63 →
        negInt (env.viewSize b).2 = -(env.viewSize b).2) := by
  refine ⟨?_, ?_, ?_, ?_, ?_, ?_, ?_⟩
  · intro r hr
    unfold ImageDetails.CursorUp
    simp only [hb, hr]
    obtain ⟨logs, h⟩ := afterMove_returns
      ({ v with gui := r.1.1, body := some r.1.2 } : ImageDetails G V K F N) l hl r.2
      "couldn't move the cursor up"
    exact ⟨_, logs, h⟩
  · intro r hr
    unfold ImageDetails.CursorDown
    simp only [hb, hr]
    obtain ⟨logs, h⟩ := afterMove_returns
      ({ v with gui := r.1.1, body := some r.1.2 } : ImageDetails G V K F N) l hl r.2
      "couldn't move the cursor down"
    exact ⟨_, logs, h⟩
  · intro r hr
    unfold ImageDetails.PageUp
    simp only [hb, hr]
    obtain ⟨logs, h⟩ := afterMove_returns
      ({ v with gui := r.1.1, body := some r.1.2 } : ImageDetails G V K F N) l hl r.2
      ("couldn't move the cursor up by " ++ toString (env.viewSize b).2 ++ " steps")
    exact ⟨_, logs, h⟩
  · intro r hr
    unfold ImageDetails.PageDown
    simp only [hb, hr]
    obtain ⟨logs, h⟩ := afterMove_returns
      ({ v with gui := r.1.1, body := some r.1.2 } : ImageDetails G V K F N) l hl r.2
      ("couldn't move the cursor down by " ++ toString (env.viewSize b).2 ++ " steps")
    exact ⟨_, logs, h⟩
  · unfold ImageDetails.PageUp
    simp only [hb]
  · unfold ImageDetails.PageDown
    simp only [hb]
  · intro h0 h1
    unfold negInt
    exact wrapInt64_of_range _ (by omega) (by omega)

/-- On the sample state after `Setup`, with cursor helpers that fail, `PageUp` asks for a
step of -24, logs the error and returns nil. -/
theorem handlers_return_nil_witness :
    sampleReady.body = some sampleBody ∧
      sampleReady.logger = some sampleLogger ∧
      failingCursorEnv.CursorStep () sampleBody (-24) =
        Outcome.returned (((), sampleBody), some "invalid cursor position") ∧
      ∃ (s : ImageDetails Unit String Unit Int Unit) (logs : List LogEntry),
        sampleReady.PageUp failingCursorEnv = Outcome.returned (s, logs, none) :=
  ⟨rfl, rfl, rfl,
    (handlers_return_nil failingCursorEnv sampleReady sampleBody sampleLogger rfl rfl).2.2.1
      (((), sampleBody), some "invalid cursor position") rfl⟩

/-- Before `Setup` the body view is nil and `PageUp` and `PageDown` panic instead of
returning nil; with a nil logger and a failing cursor move so does `CursorUp`. -/
theorem handlers_panic_before_setup :
    sampleDetails.PageUp sampleEnv = Outcome.panicked ∧
      sampleDetails.PageDown sampleEnv = Outcome.panicked ∧
      sampleNoLogger.CursorUp failingCursorEnv = Outcome.panicked :=
  ⟨rfl, rfl, rfl⟩

end Dive
